import Mathlib

/-!
# malloc_debug backtrace capture and rendering

A shallow embedding of `libc/malloc_debug/UnwindBacktrace.cpp`:

* `Setup` under `pthread_once` builds the process-wide map reader `g_maps`
  and the memory accessor `g_process_memory`;
* `Unwind` captures the calling thread's frames into two output vectors;
* `UnwindLog` renders frame descriptors, one line per frame, to the log sink.

The collaborators the file only calls (map parsing, the stack unwinder, the
demangler, the log sink) are parameters of the embedding.  Global variables
are threaded explicitly as a `Globals` record, output vectors are passed in
(prior content) and returned (content on return), and every collaborator call
is recorded in an event trace so that "is invoked" can be stated.

Unsigned machine integers are `Nat`.  The one place where a value changes
width, the store of a 64-bit `pc` into a `uintptr_t` element of `frames`, is
modelled by `toUintptr`.  Text is `String` and `c_str()` is the identity:
module and symbol names come from NUL-terminated sources, so they hold no
embedded NUL.
-/

namespace UnwindBacktrace

/-! ## Data model -/

/-- Fields of `unwindstack::MapInfo` read by this file: `name()`, `start()`,
`offset()` (the last two are printed with `PRIx64`, so they are 64-bit). -/
structure MapInfo where
  name : String
  start : Nat
  offset : Nat
deriving DecidableEq, Repr

/-- Fields of `unwindstack::FrameData` read by this file.  `map_info` is a
nullable pointer, `none` being `nullptr`.  `pc`, `rel_pc` and
`function_offset` are `uint64_t`. -/
structure FrameData where
  pc : Nat
  rel_pc : Nat
  map_info : Option MapInfo
  function_name : String
  function_offset : Nat
deriving DecidableEq, Repr

/-- The object behind `g_maps`: the maps a successful `Parse()` read. -/
structure LocalUpdatableMaps where
  maps : List MapInfo
deriving DecidableEq, Repr

/-- The object behind `g_process_memory`, created for a process id. -/
structure Memory where
  pid : Nat
deriving DecidableEq, Repr

/-- Register snapshot taken by `Regs::CreateFromLocal` / `RegsGetLocal`. -/
abbrev Regs := List Nat

/-- File-scope state of the translation unit.  `g_setup_once = false` is
`PTHREAD_ONCE_INIT`; `g_maps = none` is the null pointer. -/
structure Globals where
  g_setup_once : Bool
  g_maps : Option LocalUpdatableMaps
  g_process_memory : Option Memory
deriving DecidableEq, Repr

/-- State at process start: statics are zero-initialised. -/
def Globals.start : Globals := ⟨false, none, none⟩

/-- Calls made to collaborators, in program order. -/
inductive Event where
  | parse
  | createProcessMemory (pid : Nat)
  | unwind (max_frames : Nat) (skip : List String)
deriving DecidableEq, Repr

/-- What the collaborators would answer during one call of `Unwind`:
`parse` is the outcome `LocalUpdatableMaps::Parse` would have (`none` is
failure), `regs` the caller's registers, and `unwinder k maps regs mem skip`
the frames held by an `Unwinder` constructed with frame limit `k` on
`maps`, `regs`, `mem` after `Unwind(&skip)`; `NumFrames()` is their number and
`ConsumeFrames()` hands them over. -/
structure Env where
  pid : Nat
  parse : Option (List MapInfo)
  regs : Regs
  unwinder : Nat → LocalUpdatableMaps → Regs → Option Memory → List String → List FrameData

/-! ## Build configuration -/

/-- Width in bits of `uintptr_t`: 64 when `__LP64__` is defined, else 32. -/
def ptrBits (lp64 : Bool) : Nat := if lp64 then 64 else 32

/-- Conversion of a 64-bit value to `uintptr_t`, as in the store
`frames->at(i) = frame_info->at(i).pc`. -/
def toUintptr (lp64 : Bool) (v : Nat) : Nat := v % 2 ^ ptrBits lp64

/-- The static `g_skip_libraries`, selected by `__LP64__`. -/
def g_skip_libraries (lp64 : Bool) : List String :=
  if lp64 then
    ["/system/lib64/libunwindstack.so", "/system/lib64/libc_malloc_debug.so"]
  else
    ["/system/lib/libunwindstack.so", "/system/lib/libc_malloc_debug.so"]

/-! ## One-time setup -/

/-- Body of `Setup()`: allocate the map reader, parse, drop it on failure,
then create the process memory accessor. -/
def Setup (env : Env) (g : Globals) : Globals × List Event :=
  let g_maps : Option LocalUpdatableMaps :=
    match env.parse with
    | some ms => some ⟨ms⟩
    | none => none
  (⟨g.g_setup_once, g_maps, some ⟨env.pid⟩⟩,
    [Event.parse, Event.createProcessMemory env.pid])

/-- Sequential `pthread_once(&g_setup_once, init)`: runs `init` only while the
control is still `PTHREAD_ONCE_INIT`, and marks it done. -/
def pthread_once (g : Globals) (init : Globals → Globals × List Event) :
    Globals × List Event :=
  if g.g_setup_once then (g, [])
  else
    let r := init g
    (⟨true, r.1.g_maps, r.1.g_process_memory⟩, r.2)

/-! ## Capture -/

/-- Outcome of one `Unwind` call: the return value, both output vectors as
they are on return, the globals afterwards and the collaborator calls made. -/
structure UnwindResult where
  ret : Bool
  frames : List Nat
  frame_info : List FrameData
  globals : Globals
  events : List Event
deriving DecidableEq, Repr

/-- The call `vec.resize(n)` on a vector of `uintptr_t`: truncate, or extend
with zeros. -/
def resize (v : List Nat) (n : Nat) : List Nat :=
  v.take n ++ List.replicate (n - v.length) 0

/-- The copy loop `for (i = 0; i < frame_info->size(); i++)
frames->at(i) = frame_info->at(i).pc;`, started at index `i` with the
descriptors from `i` on still to visit. -/
def copyPcs (lp64 : Bool) : List FrameData → Nat → List Nat → List Nat
  | [], _, frames => frames
  | info :: rest, i, frames =>
      copyPcs lp64 rest (i + 1) (frames.set i (toUintptr lp64 info.pc))

/-- The function `Unwind(frames, frame_info, max_frames)`.  The arguments
`frames` and `frame_info` are the contents of the caller's vectors on entry. -/
def Unwind (lp64 : Bool) (env : Env) (g : Globals) (frames : List Nat)
    (frame_info : List FrameData) (max_frames : Nat) : UnwindResult :=
  let once := pthread_once g (Setup env)
  let g1 := once.1
  match g1.g_maps with
  | none => ⟨false, frames, frame_info, g1, once.2⟩
  | some maps =>
    let regs := env.regs
    let unwound := env.unwinder max_frames maps regs g1.g_process_memory (g_skip_libraries lp64)
    let events := once.2 ++ [Event.unwind max_frames (g_skip_libraries lp64)]
    if unwound.length = 0 then
      ⟨false, [], [], g1, events⟩
    else
      let frame_info1 := unwound
      let frames1 := resize frames frame_info1.length
      ⟨true, copyPcs lp64 frame_info1 0 frames1, frame_info1, g1, events⟩

/-! ## Rendering -/

/-- Lower-case hexadecimal digits of a value, as `%x` prints them. -/
def hex (n : Nat) : String := String.mk (Nat.toDigits 16 n)

/-- Decimal digits of a value, as `%zd` and `std::to_string` print a
non-negative integer. -/
def dec (n : Nat) : String := String.mk (Nat.toDigits 10 n)

/-- Minimum field width with the `0` flag: pad on the left with zeros up to
`w` characters, never truncating. -/
def zeroPad (w : Nat) (s : String) : String :=
  String.mk (List.replicate (w - s.data.length) '0') ++ s

/-- Field width in `PAD_PTR`: `"016" PRIx64` under `__LP64__`, else
`"08" PRIx64`. -/
def PAD_PTR (lp64 : Bool) : Nat := if lp64 then 16 else 8

/-- The text `UnwindLog` assembles for the frame at index `i`;
`demangle` stands for `__cxa_demangle`, `none` being a null result. -/
def logLine (lp64 : Bool) (demangle : String → Option String) (i : Nat)
    (info : FrameData) : String :=
  let line0 := "          #" ++ dec i ++ "  pc " ++ zeroPad (PAD_PTR lp64) (hex info.rel_pc) ++ "  "
  let line1 :=
    match info.map_info with
    | some m => if m.offset ≠ 0 then line0 ++ ("(offset 0x" ++ hex m.offset ++ ") ") else line0
    | none => line0
  let line2 :=
    match info.map_info with
    | none => line1 ++ "<unknown>"
    | some m =>
      if m.name = "" then line1 ++ ("<anonymous:" ++ hex m.start ++ ">")
      else line1 ++ m.name
  if info.function_name ≠ "" then
    let line3 := line2 ++ " ("
    let line4 :=
      match demangle info.function_name with
      | some demangled_name => line3 ++ demangled_name
      | none => line3 ++ info.function_name
    let line5 :=
      if info.function_offset ≠ 0 then line4 ++ ("+" ++ dec info.function_offset)
      else line4
    line5 ++ ")"
  else line2

/-- The sink call `error_log_string(line.c_str())`: one more line logged. -/
def error_log_string (sink : List String) (line : String) : List String :=
  sink ++ [line]

/-- The loop of `UnwindLog` from index `i` on, over the descriptors not yet
visited, threading the log sink. -/
def UnwindLog.loop (lp64 : Bool) (demangle : String → Option String) :
    List FrameData → Nat → List String → List String
  | [], _, sink => sink
  | info :: rest, i, sink =>
      UnwindLog.loop lp64 demangle rest (i + 1)
        (error_log_string sink (logLine lp64 demangle i info))

/-- The function `UnwindLog(frame_info)`: returns the sink after the call. -/
def UnwindLog (lp64 : Bool) (demangle : String → Option String)
    (frame_info : List FrameData) (sink : List String) : List String :=
  UnwindLog.loop lp64 demangle frame_info 0 sink

/-- The text `part` occurs in `line` as a contiguous run of characters. -/
def Contains (line part : String) : Prop := part.data <:+: line.data

instance instDecidableContains (line part : String) : Decidable (Contains line part) := by
  unfold Contains
  infer_instance

/-- Value of a lower-case hexadecimal digit character; no value for any
other character. -/
def digitValue (c : Char) : Option Nat :=
  if '0' ≤ c ∧ c ≤ '9' then some (c.toNat - '0'.toNat)
  else if 'a' ≤ c ∧ c ≤ 'f' then some (c.toNat - 'a'.toNat + 10)
  else none

/-- One step of reading a numeral in base `b`, most significant digit first. -/
def readStep (b : Nat) (acc : Option Nat) (c : Char) : Option Nat :=
  match acc, digitValue c with
  | some a, some d => if d < b then some (b * a + d) else none
  | _, _ => none

/-- The number a non-empty text denotes in base `b` (at most 16) with digits
`0`-`9`, `a`-`f`; no value when the text is empty or holds another character. -/
def readNumeral (b : Nat) (s : String) : Option Nat :=
  if s.data = [] then none else s.data.foldl (readStep b) (some 0)

/-! ## Sequences of calls and the initialisation phase -/

/-- One `Unwind` call of a sequential run: what the collaborators would
answer at that moment, the caller's vectors and the frame limit. -/
structure Call where
  env : Env
  frames : List Nat
  frame_info : List FrameData
  max_frames : Nat

/-- A sequential series of `Unwind` calls, each starting from the globals the
previous one left. -/
def runCalls (lp64 : Bool) : Globals → List Call → List UnwindResult
  | _, [] => []
  | g, c :: cs =>
      let r := Unwind lp64 c.env g c.frames c.frame_info c.max_frames
      r :: runCalls lp64 r.globals cs

/-- The three phases of the process-wide state. -/
inductive Phase where
  | uninitialized
  | ready
  | disabled
deriving DecidableEq, Repr

/-- Phase of the globals: before the once-latch fired, after it with a map
reader, after it without one. -/
def phase (g : Globals) : Phase :=
  if g.g_setup_once then
    match g.g_maps with
    | some _ => Phase.ready
    | none => Phase.disabled
  else Phase.uninitialized

/-! ## Sample inputs -/

/-- A sample unwinder: walks a fixed stack, drops the frames whose module
name is in the skip list and stops at the frame limit. -/
def sampleUnwinder (stack : List FrameData) :
    Nat → LocalUpdatableMaps → Regs → Option Memory → List String → List FrameData :=
  fun k _ _ _ skip =>
    (stack.filter (fun f =>
      match f.map_info with
      | some m => !(skip.contains m.name)
      | none => true)).take k

/-- A frame outside every known mapping, without a symbol. -/
def frameUnknown : FrameData := ⟨0x1000, 0x1000, none, "", 0⟩

/-- A frame in a named library mapped at a non-zero file offset, with a
mangled symbol. -/
def frameLibc : FrameData :=
  ⟨0x7f001234, 0x1234, some ⟨"/system/lib64/libc.so", 0x7f000000, 0x2000⟩, "_Z3foov", 12⟩

/-- A frame in an anonymous mapping, with a plain symbol. -/
def frameAnon : FrameData :=
  ⟨0x7e000010, 0x10, some ⟨"", 0x7e000000, 0⟩, "bar", 0⟩

/-- A frame of the 64-bit malloc debug library itself. -/
def frameDebug64 : FrameData :=
  ⟨0x7d000020, 0x20, some ⟨"/system/lib64/libc_malloc_debug.so", 0x7d000000, 0⟩, "debug_malloc", 4⟩

/-- A frame of the 64-bit unwinder library itself. -/
def frameUnwind64 : FrameData :=
  ⟨0x7c000030, 0x30, some ⟨"/system/lib64/libunwindstack.so", 0x7c000000, 0⟩, "", 0⟩

/-- A frame outside every known mapping whose relative program counter does
not fit 32 bits. -/
def frameWide : FrameData := ⟨0x100000000, 0x100000000, none, "", 0⟩

/-- A frame outside every known mapping whose relative program counter
differs from its program counter. -/
def frameShifted : FrameData := ⟨0x1000, 0x2000, none, "", 0⟩

/-- A frame in a named library mapped at file offset zero, with a symbol
offset but no symbol name. -/
def frameNoSymbol : FrameData :=
  ⟨0x7b000040, 0x40, some ⟨"/system/lib64/libm.so", 0x7b000000, 0⟩, "", 24⟩

/-- Collaborators of a process whose maps cannot be parsed. -/
def envParseFails : Env :=
  ⟨1, none, [], sampleUnwinder [frameDebug64, frameLibc, frameUnknown]⟩

/-- Collaborators of a healthy process with a three-frame user stack below
the instrumentation's own frames. -/
def envHealthy : Env :=
  ⟨1, some [], [], sampleUnwinder [frameUnwind64, frameDebug64, frameLibc, frameAnon, frameUnknown]⟩

/-- Collaborators of a healthy process whose stack holds only frames of the
instrumentation's own libraries. -/
def envOnlyDenied : Env :=
  ⟨1, some [], [], sampleUnwinder [frameUnwind64, frameDebug64]⟩

/-- A run of two calls: the first meets a failing `Parse`, the second is made
when `Parse` would succeed. -/
def sampleRun : List Call :=
  [⟨envParseFails, [], [], 4⟩, ⟨envHealthy, [], [], 4⟩]

/-- Collaborators of a healthy process whose unwinder reports one frame with
a program counter of `2 ^ 32`. -/
def envWide : Env :=
  ⟨1, some [], [], sampleUnwinder [frameWide]⟩

/-- Collaborators of a healthy process whose unwinder reports a frame with a
small program counter followed by one with a program counter of `2 ^ 32`. -/
def envMixed : Env :=
  ⟨1, some [], [], sampleUnwinder [frameUnknown, frameWide]⟩

/-- A sample demangler knowing one mangled name. -/
def sampleDemangle : String → Option String :=
  fun s => if s = "_Z3foov" then some "foo()" else none

/-! ## Lemmas on the capture path -/

theorem resize_length (v : List Nat) (n : Nat) : (resize v n).length = n := by
  simp only [resize, List.length_append, List.length_take, List.length_replicate]
  omega

theorem take_succ_set (v : List Nat) (i x : Nat) (h : i < v.length) :
    (v.set i x).take (i + 1) = v.take i ++ [x] := by
  induction v generalizing i with
  | nil => simp at h
  | cons a t ih =>
    cases i with
    | zero => simp
    | succ j =>
      have hj : j < t.length := by simpa using h
      simp [ih j hj]

theorem copyPcs_spec (lp64 : Bool) :
    ∀ (rest : List FrameData) (i : Nat) (frames : List Nat),
      frames.length = i + rest.length →
      copyPcs lp64 rest i frames
        = frames.take i ++ rest.map (fun f => toUintptr lp64 f.pc) := by
  intro rest
  induction rest with
  | nil =>
    intro i frames h
    have hi : frames.length ≤ i := by simp at h; omega
    simp [copyPcs, List.take_of_length_le hi]
  | cons info rest ih =>
    intro i frames h
    have hlt : i < frames.length := by simp at h; omega
    have hlen : (frames.set i (toUintptr lp64 info.pc)).length = (i + 1) + rest.length := by
      simp at h ⊢; omega
    rw [copyPcs, ih (i + 1) _ hlen, take_succ_set frames i _ hlt]
    simp

theorem copyPcs_resize (lp64 : Bool) (frames : List Nat) (fi : List FrameData) :
    copyPcs lp64 fi 0 (resize frames fi.length)
      = fi.map (fun f => toUintptr lp64 f.pc) := by
  rw [copyPcs_spec lp64 fi 0 _ (by simp [resize_length])]
  simp

/-- The three ways through `Unwind`: disabled, no frame, success. -/
theorem Unwind_cases (lp64 : Bool) (env : Env) (g : Globals) (frames : List Nat)
    (fi : List FrameData) (k : Nat) :
    ((pthread_once g (Setup env)).1.g_maps = none ∧
      Unwind lp64 env g frames fi k
        = ⟨false, frames, fi, (pthread_once g (Setup env)).1, (pthread_once g (Setup env)).2⟩) ∨
    (∃ maps, (pthread_once g (Setup env)).1.g_maps = some maps ∧
      env.unwinder k maps env.regs (pthread_once g (Setup env)).1.g_process_memory
        (g_skip_libraries lp64) = [] ∧
      Unwind lp64 env g frames fi k
        = ⟨false, [], [], (pthread_once g (Setup env)).1,
            (pthread_once g (Setup env)).2 ++ [Event.unwind k (g_skip_libraries lp64)]⟩) ∨
    (∃ maps, (pthread_once g (Setup env)).1.g_maps = some maps ∧
      env.unwinder k maps env.regs (pthread_once g (Setup env)).1.g_process_memory
        (g_skip_libraries lp64) ≠ [] ∧
      Unwind lp64 env g frames fi k
        = ⟨true,
            (env.unwinder k maps env.regs (pthread_once g (Setup env)).1.g_process_memory
              (g_skip_libraries lp64)).map (fun f => toUintptr lp64 f.pc),
            env.unwinder k maps env.regs (pthread_once g (Setup env)).1.g_process_memory
              (g_skip_libraries lp64),
            (pthread_once g (Setup env)).1,
            (pthread_once g (Setup env)).2 ++ [Event.unwind k (g_skip_libraries lp64)]⟩) := by
  cases hm : (pthread_once g (Setup env)).1.g_maps with
  | none =>
    left
    refine ⟨rfl, ?_⟩
    simp only [Unwind, hm]
  | some maps =>
    right
    by_cases hU : env.unwinder k maps env.regs (pthread_once g (Setup env)).1.g_process_memory
        (g_skip_libraries lp64) = []
    · left
      refine ⟨maps, rfl, hU, ?_⟩
      simp only [Unwind, hm, hU, List.length_nil, if_true]
    · right
      refine ⟨maps, rfl, hU, ?_⟩
      have hlen : ¬ (env.unwinder k maps env.regs (pthread_once g (Setup env)).1.g_process_memory
          (g_skip_libraries lp64)).length = 0 := by
        simpa [List.length_eq_zero] using hU
      simp only [Unwind, hm, hlen, if_false, copyPcs_resize]

/-- Globals after the once-latch when it had already fired: unchanged, and
nothing is called. -/
theorem pthread_once_done (g : Globals) (init : Globals → Globals × List Event)
    (h : g.g_setup_once = true) : pthread_once g init = (g, []) := by
  simp [pthread_once, h]

/-- Globals after the once-latch when it had not fired: `Setup` ran. -/
theorem pthread_once_first (env : Env) (g : Globals) (h : g.g_setup_once = false) :
    pthread_once g (Setup env)
      = (⟨true, env.parse.map LocalUpdatableMaps.mk, some ⟨env.pid⟩⟩,
          [Event.parse, Event.createProcessMemory env.pid]) := by
  cases hp : env.parse <;> simp [pthread_once, Setup, h, hp]

theorem pthread_once_latched (env : Env) (g : Globals) :
    (pthread_once g (Setup env)).1.g_setup_once = true := by
  cases h : g.g_setup_once
  · rw [pthread_once_first env g h]
  · rw [pthread_once_done g _ h]; exact h

theorem Unwind_globals (lp64 : Bool) (env : Env) (g : Globals) (frames : List Nat)
    (fi : List FrameData) (k : Nat) :
    (Unwind lp64 env g frames fi k).globals = (pthread_once g (Setup env)).1 := by
  rcases Unwind_cases lp64 env g frames fi k with ⟨_, h⟩ | ⟨_, _, _, h⟩ | ⟨_, _, _, h⟩ <;>
    rw [h]

/-! ## Capture: the claims -/

/-- C1 (evaluation at the failing input): with the subsystem disabled
(map parsing failed) and caller vectors that already hold one entry each,
`Unwind` returns false and both vectors still hold that entry, so they are
not empty on return; the zero-frame failure path of the same function clears
them. -/
theorem Unwind_disabled_keeps_stale_output :
    (Unwind true envParseFails Globals.start [0x1000] [frameUnknown] 4).ret = false ∧
    (Unwind true envParseFails Globals.start [0x1000] [frameUnknown] 4).frames = [0x1000] ∧
    (Unwind true envParseFails Globals.start [0x1000] [frameUnknown] 4).frame_info
      = [frameUnknown] ∧
    (Unwind true envOnlyDenied Globals.start [0x1000] [frameUnknown] 4).ret = false ∧
    (Unwind true envOnlyDenied Globals.start [0x1000] [frameUnknown] 4).frames = [] ∧
    (Unwind true envOnlyDenied Globals.start [0x1000] [frameUnknown] 4).frame_info = [] := by
  decide

/-- C2 (as stated, refuted): on a 32-bit build, when the unwinder reports one
frame whose `pc` is `2 ^ 32`, `Unwind` returns true with equal lengths, but
the address at index 0 is 0, not that `pc`: the store into the `uintptr_t`
element keeps the low 32 bits. -/
theorem Unwind_paired_not_exact :
    (Unwind false envWide Globals.start [] [] 4).ret = true ∧
    (Unwind false envWide Globals.start [] [] 4).frame_info = [frameWide] ∧
    frameWide.pc = 0x100000000 ∧
    (Unwind false envWide Globals.start [] [] 4).frames = [0] ∧
    (Unwind false envWide Globals.start [] [] 4).frames[0]? ≠ some frameWide.pc := by
  decide

/-- C2 (amended): whenever `Unwind` returns true, the address vector and the
frame descriptor vector have the same length, and at every index the address
is the descriptor's `pc` converted to `uintptr_t`, that is reduced modulo
`2 ^ ptrBits`; it is the `pc` itself whenever that `pc` is below
`2 ^ ptrBits`. -/
theorem Unwind_paired (lp64 : Bool) (env : Env) (g : Globals) (frames : List Nat)
    (fi : List FrameData) (k : Nat)
    (hret : (Unwind lp64 env g frames fi k).ret = true) :
    (Unwind lp64 env g frames fi k).frames.length
      = (Unwind lp64 env g frames fi k).frame_info.length ∧
    (∀ (i : Nat) (h : i < (Unwind lp64 env g frames fi k).frame_info.length),
      (Unwind lp64 env g frames fi k).frames[i]?
        = some (toUintptr lp64 ((Unwind lp64 env g frames fi k).frame_info[i]).pc)) ∧
    (∀ (i : Nat) (h : i < (Unwind lp64 env g frames fi k).frame_info.length),
      ((Unwind lp64 env g frames fi k).frame_info[i]).pc < 2 ^ ptrBits lp64 →
      (Unwind lp64 env g frames fi k).frames[i]?
        = some ((Unwind lp64 env g frames fi k).frame_info[i]).pc) := by
  rcases Unwind_cases lp64 env g frames fi k with ⟨_, h⟩ | ⟨_, _, _, h⟩ | ⟨maps, _, _, h⟩
  · rw [h] at hret; simp at hret
  · rw [h] at hret; simp at hret
  · have key : ∀ (i : Nat) (h : i < (Unwind lp64 env g frames fi k).frame_info.length),
        (Unwind lp64 env g frames fi k).frames[i]?
          = some (toUintptr lp64 ((Unwind lp64 env g frames fi k).frame_info[i]).pc) := by
      simp only [h]
      intro i hi
      simp [List.getElem?_map, List.getElem?_eq_getElem hi]
    refine ⟨?_, key, ?_⟩
    · simp only [h, List.length_map]
    · intro i hi hlt
      rw [key i hi, toUintptr, Nat.mod_eq_of_lt hlt]

/-- Witness of C2 (amended): a successful capture on a healthy 64-bit process. -/
theorem Unwind_paired_witness :
    (Unwind true envHealthy Globals.start [7, 7, 7, 7, 7] [] 8).ret = true ∧
    (Unwind true envHealthy Globals.start [7, 7, 7, 7, 7] [] 8).frames.length
      = (Unwind true envHealthy Globals.start [7, 7, 7, 7, 7] [] 8).frame_info.length ∧
    (Unwind true envHealthy Globals.start [7, 7, 7, 7, 7] [] 8).frames
      = [0x7f001234, 0x7e000010, 0x1000] :=
  ⟨by decide,
    (Unwind_paired true envHealthy Globals.start [7, 7, 7, 7, 7] [] 8 (by decide)).1,
    by decide⟩

/-- C3: `Unwind` returns true exactly when, after the one-time setup, the
map reader `g_maps` is non-null and the unwinder produced at least one frame
for this call.  When the latch fires in this call, `g_maps` is non-null
exactly when this call's `Parse` succeeded; when it had fired before, the
globals are left as they were.  A call on which the unwinder yields no frame
returns false. -/
theorem Unwind_true_iff (lp64 : Bool) (env : Env) (g : Globals) (frames : List Nat)
    (fi : List FrameData) (k : Nat) :
    ((Unwind lp64 env g frames fi k).ret = true ↔
      ∃ maps, (Unwind lp64 env g frames fi k).globals.g_maps = some maps ∧
        env.unwinder k maps env.regs (Unwind lp64 env g frames fi k).globals.g_process_memory
          (g_skip_libraries lp64) ≠ []) ∧
    (g.g_setup_once = false →
      ((Unwind lp64 env g frames fi k).globals.g_maps ≠ none ↔ env.parse ≠ none)) ∧
    (g.g_setup_once = true → (Unwind lp64 env g frames fi k).globals = g) ∧
    ((∀ maps mem, env.unwinder k maps env.regs mem (g_skip_libraries lp64) = []) →
      (Unwind lp64 env g frames fi k).ret = false) := by
  refine ⟨?_, ?_, ?_, ?_⟩
  · rw [Unwind_globals]
    rcases Unwind_cases lp64 env g frames fi k with ⟨hm, h⟩ | ⟨maps, hm, hU, h⟩ | ⟨maps, hm, hU, h⟩
    · simp [h, hm]
    · simp [h, hm, hU]
    · simp only [h, hm, true_iff]
      exact ⟨maps, rfl, hU⟩
  · intro h0
    rw [Unwind_globals, pthread_once_first env g h0]
    cases env.parse <;> simp
  · intro h1
    rw [Unwind_globals, pthread_once_done g _ h1]
  · intro hnone
    rcases Unwind_cases lp64 env g frames fi k with ⟨_, h⟩ | ⟨_, _, _, h⟩ | ⟨maps, _, hU, h⟩
    · rw [h]
    · rw [h]
    · exact absurd (hnone maps _) hU

/-- Witness of C3: a healthy process whose stack holds only deny-listed
frames, captured with a frame limit of 2, yields failure. -/
theorem Unwind_true_iff_witness :
    (∀ maps mem, envOnlyDenied.unwinder 2 maps envOnlyDenied.regs mem (g_skip_libraries true) = []) ∧
    (Unwind true envOnlyDenied Globals.start [] [] 2).ret = false :=
  ⟨fun _ _ => rfl,
    (Unwind_true_iff true envOnlyDenied Globals.start [] [] 2).2.2.2 (fun _ _ => rfl)⟩

/-! ## The once-latch over a series of calls -/

theorem Unwind_events (lp64 : Bool) (env : Env) (g : Globals) (frames : List Nat)
    (fi : List FrameData) (k : Nat) :
    (Unwind lp64 env g frames fi k).events
      = (pthread_once g (Setup env)).2 ++
          (match (pthread_once g (Setup env)).1.g_maps with
           | none => []
           | some _ => [Event.unwind k (g_skip_libraries lp64)]) := by
  rcases Unwind_cases lp64 env g frames fi k with ⟨hm, h⟩ | ⟨_, hm, _, h⟩ | ⟨_, hm, _, h⟩ <;>
    simp [h, hm]

theorem Unwind_disabled_ret (lp64 : Bool) (env : Env) (g : Globals) (frames : List Nat)
    (fi : List FrameData) (k : Nat)
    (hm : (pthread_once g (Setup env)).1.g_maps = none) :
    (Unwind lp64 env g frames fi k).ret = false := by
  rcases Unwind_cases lp64 env g frames fi k with ⟨_, h⟩ | ⟨_, hm2, _, h⟩ | ⟨_, hm2, _, h⟩
  · rw [h]
  · rw [hm] at hm2; cases hm2
  · rw [hm] at hm2; cases hm2

/-- A call made after the latch fired leaves the globals alone, calls neither
`Parse` nor the memory factory, and, when `g_maps` is null, calls nothing and
fails. -/
theorem Unwind_after_latch (lp64 : Bool) (env : Env) (g : Globals) (frames : List Nat)
    (fi : List FrameData) (k : Nat) (h1 : g.g_setup_once = true) :
    (Unwind lp64 env g frames fi k).globals = g ∧
    (Unwind lp64 env g frames fi k).events.count Event.parse = 0 ∧
    (∀ p, Event.createProcessMemory p ∉ (Unwind lp64 env g frames fi k).events) ∧
    (g.g_maps = none →
      (Unwind lp64 env g frames fi k).ret = false ∧
      (Unwind lp64 env g frames fi k).events = []) := by
  have hg : (Unwind lp64 env g frames fi k).globals = g := by
    rw [Unwind_globals, pthread_once_done g _ h1]
  have he := Unwind_events lp64 env g frames fi k
  rw [pthread_once_done g _ h1] at he
  refine ⟨hg, ?_, ?_, ?_⟩
  · rw [he]; cases g.g_maps <;> simp
  · intro p; rw [he]; cases g.g_maps <;> simp
  · intro hm
    refine ⟨Unwind_disabled_ret lp64 env g frames fi k ?_, ?_⟩
    · rw [pthread_once_done g _ h1]; exact hm
    · rw [he]; simp [hm]

/-- Every call of a series started after the latch fired sees the same
globals and behaves as `Unwind_after_latch` says. -/
theorem runCalls_after_latch (lp64 : Bool) (g : Globals) (h1 : g.g_setup_once = true) :
    ∀ (cs : List Call), ∀ r ∈ runCalls lp64 g cs,
      r.globals = g ∧ r.events.count Event.parse = 0 ∧
      (∀ p, Event.createProcessMemory p ∉ r.events) ∧
      (g.g_maps = none → r.ret = false ∧ r.events = []) := by
  intro cs
  induction cs with
  | nil => intro r hr; simp [runCalls] at hr
  | cons c cs ih =>
    intro r hr
    have hstep := Unwind_after_latch lp64 c.env g c.frames c.frame_info c.max_frames h1
    simp only [runCalls, List.mem_cons] at hr
    rcases hr with rfl | hr
    · exact hstep
    · rw [hstep.1] at hr
      exact ih r hr

theorem runCalls_after_latch_sum (lp64 : Bool) (g : Globals) (h1 : g.g_setup_once = true)
    (cs : List Call) :
    ((runCalls lp64 g cs).map (fun r => r.events.count Event.parse)).sum = 0 := by
  apply List.sum_eq_zero
  intro n hn
  rcases List.mem_map.mp hn with ⟨r, hr, rfl⟩
  exact (runCalls_after_latch lp64 g h1 cs r hr).2.1

theorem phase_after_once (env : Env) (g : Globals) :
    phase (pthread_once g (Setup env)).1 ≠ Phase.uninitialized ∧
    (phase g = Phase.ready → phase (pthread_once g (Setup env)).1 = Phase.ready) ∧
    (phase g = Phase.disabled → phase (pthread_once g (Setup env)).1 = Phase.disabled) := by
  cases h : g.g_setup_once
  · rw [pthread_once_first env g h]
    refine ⟨?_, ?_, ?_⟩
    · cases env.parse <;> simp [phase]
    · intro hp; simp [phase, h] at hp
    · intro hp; simp [phase, h] at hp
  · rw [pthread_once_done g _ h]
    refine ⟨?_, fun hp => hp, fun hp => hp⟩
    cases hm : g.g_maps <;> simp [phase, h, hm]

theorem runCalls_phase (lp64 : Bool) :
    ∀ (cs : List Call) (g : Globals), ∀ r ∈ runCalls lp64 g cs,
      phase r.globals ≠ Phase.uninitialized ∧
      (phase g = Phase.ready → phase r.globals = Phase.ready) ∧
      (phase g = Phase.disabled → phase r.globals = Phase.disabled) := by
  intro cs
  induction cs with
  | nil => intro g r hr; simp [runCalls] at hr
  | cons c cs ih =>
    intro g r hr
    have hg := Unwind_globals lp64 c.env g c.frames c.frame_info c.max_frames
    have hp := phase_after_once c.env g
    rw [← hg] at hp
    simp only [runCalls, List.mem_cons] at hr
    rcases hr with rfl | hr
    · exact hp
    · have := ih _ r hr
      exact ⟨this.1, fun h => this.2.1 (hp.2.1 h), fun h => this.2.2 (hp.2.2 h)⟩

/-- C4: over every sequential series of `Unwind` calls from process start,
`Parse` is called at most once in total and neither `Parse` nor the memory
factory is called after the first call; if the first call's `Parse` fails,
every call of the series returns false with the state disabled and without
calling the unwinder, and every later call calls nothing at all, whatever its
own `Parse` would have answered; and from any state, a series never leaves
the ready phase or the disabled phase, nor returns to uninitialized. -/
theorem Unwind_once_and_permanent (lp64 : Bool) (calls : List Call) :
    ((runCalls lp64 Globals.start calls).map (fun r => r.events.count Event.parse)).sum ≤ 1 ∧
    (∀ r ∈ (runCalls lp64 Globals.start calls).tail,
      Event.parse ∉ r.events ∧ ∀ p, Event.createProcessMemory p ∉ r.events) ∧
    (∀ c cs, calls = c :: cs → c.env.parse = none →
      (∀ r ∈ runCalls lp64 Globals.start calls,
        r.ret = false ∧ phase r.globals = Phase.disabled ∧
        ∀ k s, Event.unwind k s ∉ r.events) ∧
      (∀ r ∈ (runCalls lp64 Globals.start calls).tail, r.events = [])) ∧
    (∀ (g : Globals) (cs : List Call), ∀ r ∈ runCalls lp64 g cs,
      phase r.globals ≠ Phase.uninitialized ∧
      (phase g = Phase.ready → phase r.globals = Phase.ready) ∧
      (phase g = Phase.disabled → phase r.globals = Phase.disabled)) := by
  refine ⟨?_, ?_, ?_, fun g cs => runCalls_phase lp64 cs g⟩
  · cases calls with
    | nil => simp [runCalls]
    | cons c cs =>
      have hl : (Unwind lp64 c.env Globals.start c.frames c.frame_info c.max_frames).globals.g_setup_once
          = true := by
        rw [Unwind_globals]; exact pthread_once_latched _ _
      have he := Unwind_events lp64 c.env Globals.start c.frames c.frame_info c.max_frames
      rw [pthread_once_first c.env Globals.start rfl] at he
      have hc : (Unwind lp64 c.env Globals.start c.frames c.frame_info c.max_frames).events.count
          Event.parse = 1 := by
        rw [he]; cases c.env.parse <;> simp
      simp only [runCalls, List.map_cons, List.sum_cons, hc,
        runCalls_after_latch_sum lp64 _ hl cs]
      omega
  · cases calls with
    | nil => simp [runCalls]
    | cons c cs =>
      have hl : (Unwind lp64 c.env Globals.start c.frames c.frame_info c.max_frames).globals.g_setup_once
          = true := by
        rw [Unwind_globals]; exact pthread_once_latched _ _
      intro r hr
      simp only [runCalls, List.tail_cons] at hr
      have := runCalls_after_latch lp64 _ hl cs r hr
      exact ⟨fun hmem => by
        have h0 := this.2.1
        rw [List.count_eq_zero] at h0
        exact h0 hmem, this.2.2.1⟩
  · intro c cs hcalls hparse
    subst hcalls
    have hg := Unwind_globals lp64 c.env Globals.start c.frames c.frame_info c.max_frames
    have hone := pthread_once_first c.env Globals.start rfl
    rw [hparse] at hone
    have hl : (Unwind lp64 c.env Globals.start c.frames c.frame_info c.max_frames).globals.g_setup_once
        = true := by
      rw [hg, hone]
    have hm : (Unwind lp64 c.env Globals.start c.frames c.frame_info c.max_frames).globals.g_maps
        = none := by
      rw [hg, hone]; rfl
    have he := Unwind_events lp64 c.env Globals.start c.frames c.frame_info c.max_frames
    rw [hone] at he
    have hrest := runCalls_after_latch lp64 _ hl cs
    refine ⟨?_, ?_⟩
    · intro r hr
      simp only [runCalls, List.mem_cons] at hr
      rcases hr with rfl | hr
      · refine ⟨Unwind_disabled_ret _ _ _ _ _ _ (by rw [hone]; rfl), ?_, ?_⟩
        · rw [hg, hone]; rfl
        · intro k s; rw [he]; simp
      · have h := hrest r hr
        have hev := (h.2.2.2 hm).2
        refine ⟨(h.2.2.2 hm).1, ?_, ?_⟩
        · rw [h.1]; simp [phase, hl, hm]
        · intro k s; rw [hev]; simp
    · intro r hr
      simp only [runCalls, List.tail_cons] at hr
      exact ((hrest r hr).2.2.2 hm).2

/-- Witness of C4: in a two-call run whose first `Parse` fails and whose
second `Parse` would succeed, both calls fail and the second calls nothing. -/
theorem Unwind_once_and_permanent_witness :
    envParseFails.parse = none ∧ envHealthy.parse ≠ none ∧
    (∀ r ∈ runCalls true Globals.start sampleRun,
      r.ret = false ∧ phase r.globals = Phase.disabled ∧
      ∀ k s, Event.unwind k s ∉ r.events) ∧
    (∀ r ∈ (runCalls true Globals.start sampleRun).tail, r.events = []) :=
  ⟨rfl, by simp [envHealthy],
    ((Unwind_once_and_permanent true sampleRun).2.2.1 _ _ rfl rfl).1,
    ((Unwind_once_and_permanent true sampleRun).2.2.1 _ _ rfl rfl).2⟩

/-! ## Capture: content, bound and deny-list -/

theorem sampleUnwinder_length (stack : List FrameData) (k : Nat) (maps : LocalUpdatableMaps)
    (regs : Regs) (mem : Option Memory) (skip : List String) :
    (sampleUnwinder stack k maps regs mem skip).length ≤ k := by
  simp only [sampleUnwinder, List.length_take]
  exact Nat.min_le_left _ _

theorem sampleUnwinder_drops (stack : List FrameData) (k : Nat) (maps : LocalUpdatableMaps)
    (regs : Regs) (mem : Option Memory) (skip : List String) :
    ∀ f ∈ sampleUnwinder stack k maps regs mem skip,
      ∀ m, f.map_info = some m → m.name ∉ skip := by
  intro f hf m hm
  have h1 := List.mem_of_mem_take hf
  rw [List.mem_filter] at h1
  have h2 := h1.2
  rw [hm] at h2
  simpa using h2

/-- C5 (as stated, refuted): on a 32-bit build, when the unwinder reports a
frame with `pc = 0x1000` followed by one with `pc = 2 ^ 32`, `Unwind` returns
true with exactly these two descriptors, but the address vector is
`[0x1000, 0]`, which is not the descriptors mapped to their `pc` fields. -/
theorem Unwind_exact_not_pc_map :
    (Unwind false envMixed Globals.start [9, 9, 9] [frameDebug64] 4).ret = true ∧
    (Unwind false envMixed Globals.start [9, 9, 9] [frameDebug64] 4).frame_info
      = [frameUnknown, frameWide] ∧
    (Unwind false envMixed Globals.start [9, 9, 9] [frameDebug64] 4).frames = [0x1000, 0] ∧
    (Unwind false envMixed Globals.start [9, 9, 9] [frameDebug64] 4).frame_info.map
      (fun f => f.pc) = [0x1000, 0x100000000] ∧
    (Unwind false envMixed Globals.start [9, 9, 9] [frameDebug64] 4).frames
      ≠ (Unwind false envMixed Globals.start [9, 9, 9] [frameDebug64] 4).frame_info.map
          (fun f => f.pc) := by
  decide

/-- C5 (amended): whenever `Unwind` returns true, the frame descriptor vector
is the sequence the unwinder produced for this call, as produced and in the
same order; the address vector is that sequence mapped to its `pc` fields
converted to `uintptr_t` (reduced modulo `2 ^ ptrBits`), hence to its `pc`
fields when these are all below `2 ^ ptrBits`; and neither depends on what the
two vectors held before the call. -/
theorem Unwind_exact (lp64 : Bool) (env : Env) (g : Globals) (frames : List Nat)
    (fi : List FrameData) (k : Nat)
    (hret : (Unwind lp64 env g frames fi k).ret = true) :
    ∃ maps, (Unwind lp64 env g frames fi k).globals.g_maps = some maps ∧
      (Unwind lp64 env g frames fi k).frame_info
        = env.unwinder k maps env.regs (Unwind lp64 env g frames fi k).globals.g_process_memory
            (g_skip_libraries lp64) ∧
      (Unwind lp64 env g frames fi k).frames
        = (Unwind lp64 env g frames fi k).frame_info.map (fun f => toUintptr lp64 f.pc) ∧
      ((∀ f ∈ (Unwind lp64 env g frames fi k).frame_info, f.pc < 2 ^ ptrBits lp64) →
        (Unwind lp64 env g frames fi k).frames
          = (Unwind lp64 env g frames fi k).frame_info.map (fun f => f.pc)) ∧
      (∀ (frames2 : List Nat) (fi2 : List FrameData),
        (Unwind lp64 env g frames2 fi2 k).ret = true ∧
        (Unwind lp64 env g frames2 fi2 k).frames = (Unwind lp64 env g frames fi k).frames ∧
        (Unwind lp64 env g frames2 fi2 k).frame_info
          = (Unwind lp64 env g frames fi k).frame_info) := by
  rcases Unwind_cases lp64 env g frames fi k with ⟨_, h⟩ | ⟨_, _, _, h⟩ | ⟨maps, hm, hU, h⟩
  · rw [h] at hret; simp at hret
  · rw [h] at hret; simp at hret
  · refine ⟨maps, ?_, ?_, ?_, ?_, ?_⟩
    · rw [Unwind_globals]; exact hm
    · rw [Unwind_globals]; simp only [h]
    · simp only [h]
    · intro hfit
      simp only [h] at hfit ⊢
      apply List.map_congr_left
      intro f hf
      exact Nat.mod_eq_of_lt (hfit f hf)
    · intro frames2 fi2
      rcases Unwind_cases lp64 env g frames2 fi2 k with
        ⟨hm2, _⟩ | ⟨maps2, hm2, hU2, _⟩ | ⟨maps2, hm2, _, h2⟩
      · rw [hm] at hm2; cases hm2
      · rw [hm] at hm2; cases hm2; exact absurd hU2 hU
      · rw [hm] at hm2; cases hm2
        simp only [h, h2, and_self]

/-- Witness of C5 (amended): a successful capture into vectors holding stale
entries. -/
theorem Unwind_exact_witness :
    (Unwind true envHealthy Globals.start [9, 9, 9, 9] [frameDebug64] 2).ret = true ∧
    (Unwind true envHealthy Globals.start [9, 9, 9, 9] [frameDebug64] 2).frame_info
      = [frameLibc, frameAnon] ∧
    (Unwind true envHealthy Globals.start [9, 9, 9, 9] [frameDebug64] 2).frames
      = [0x7f001234, 0x7e000010] ∧
    ∃ maps, (Unwind true envHealthy Globals.start [9, 9, 9, 9] [frameDebug64] 2).globals.g_maps
      = some maps :=
  ⟨by decide, by decide, by decide,
    (Unwind_exact true envHealthy Globals.start [9, 9, 9, 9] [frameDebug64] 2 (by decide)).imp
      (fun _ h => h.1)⟩

/-- C6 (evaluation at the failing input): the unwinder keeps to the frame
limit 2, map parsing fails, and the caller's vectors hold three entries each;
`Unwind` with `max_frames = 2` returns false and both vectors still hold
their three entries on return, more than the limit.  The early return of the
disabled path does not clear the vectors; the zero-frame path does. -/
theorem Unwind_disabled_exceeds_bound :
    (∀ maps regs mem skip, (envParseFails.unwinder 2 maps regs mem skip).length ≤ 2) ∧
    (Unwind true envParseFails Globals.start [1, 2, 3]
      [frameUnknown, frameLibc, frameAnon] 2).ret = false ∧
    (Unwind true envParseFails Globals.start [1, 2, 3]
      [frameUnknown, frameLibc, frameAnon] 2).frames.length = 3 ∧
    (Unwind true envParseFails Globals.start [1, 2, 3]
      [frameUnknown, frameLibc, frameAnon] 2).frame_info.length = 3 ∧
    ¬ ((Unwind true envParseFails Globals.start [1, 2, 3]
      [frameUnknown, frameLibc, frameAnon] 2).frames.length ≤ 2) ∧
    (Unwind true envOnlyDenied Globals.start [1, 2, 3]
      [frameUnknown, frameLibc, frameAnon] 2).frames.length = 0 :=
  ⟨fun maps regs mem skip => sampleUnwinder_length _ 2 maps regs mem skip,
    by decide, by decide, by decide, by decide, by decide⟩

/-- The frame limit on the paths where the unwinder runs: if the unwinder
built with frame limit `k` produces at most `k` frames, then after `Unwind`
with `max_frames = k` both vectors have length at most `k` whenever the call
succeeded or the map reader exists, and in every case when the caller's
vectors were within the bound on entry; the unwinder is called with the
caller's `max_frames`. -/
theorem Unwind_bounded (lp64 : Bool) (env : Env) (g : Globals) (frames : List Nat)
    (fi : List FrameData) (k : Nat)
    (hbound : ∀ maps regs mem skip, (env.unwinder k maps regs mem skip).length ≤ k) :
    (((Unwind lp64 env g frames fi k).ret = true ∨
        (Unwind lp64 env g frames fi k).globals.g_maps ≠ none) →
      (Unwind lp64 env g frames fi k).frames.length ≤ k ∧
      (Unwind lp64 env g frames fi k).frame_info.length ≤ k) ∧
    (frames.length ≤ k → fi.length ≤ k →
      (Unwind lp64 env g frames fi k).frames.length ≤ k ∧
      (Unwind lp64 env g frames fi k).frame_info.length ≤ k) ∧
    (∀ n s, Event.unwind n s ∈ (Unwind lp64 env g frames fi k).events → n = k) := by
  have hev := Unwind_events lp64 env g frames fi k
  have hpre : ∀ n s, Event.unwind n s ∉ (pthread_once g (Setup env)).2 := by
    intro n s
    cases h : g.g_setup_once
    · rw [pthread_once_first env g h]; simp
    · rw [pthread_once_done g _ h]; simp
  have hlast : ∀ n s, Event.unwind n s ∈ (Unwind lp64 env g frames fi k).events → n = k := by
    intro n s hmem
    rw [hev, List.mem_append] at hmem
    rcases hmem with hmem | hmem
    · exact absurd hmem (hpre n s)
    · cases hm : (pthread_once g (Setup env)).1.g_maps with
      | none => simp [hm] at hmem
      | some maps => simp [hm] at hmem; exact hmem.1
  rw [Unwind_globals]
  rcases Unwind_cases lp64 env g frames fi k with ⟨hm, h⟩ | ⟨_, _, _, h⟩ | ⟨maps, _, _, h⟩
  · refine ⟨?_, ?_, hlast⟩
    · intro hor
      rcases hor with hr | hne
      · rw [h] at hr; simp at hr
      · exact absurd hm hne
    · intro h1 h2; simp only [h]; exact ⟨h1, h2⟩
  · refine ⟨fun _ => ?_, fun _ _ => ?_, hlast⟩ <;> simp [h]
  · refine ⟨fun _ => ?_, fun _ _ => ?_, hlast⟩ <;>
      simp only [h, List.length_map, and_self] <;> exact hbound _ _ _ _

/-- Example of the frame limit: a five-frame stack captured with a limit of 2. -/
theorem Unwind_bounded_witness :
    (∀ maps regs mem skip, (envHealthy.unwinder 2 maps regs mem skip).length ≤ 2) ∧
    (Unwind true envHealthy Globals.start [] [] 2).ret = true ∧
    (Unwind true envHealthy Globals.start [] [] 2).frames.length ≤ 2 ∧
    (Unwind true envHealthy Globals.start [] [] 2).frame_info.length ≤ 2 :=
  ⟨fun maps regs mem skip => sampleUnwinder_length _ 2 maps regs mem skip,
    by decide,
    (Unwind_bounded true envHealthy Globals.start [] [] 2
      (fun maps regs mem skip => sampleUnwinder_length _ 2 maps regs mem skip)).1
      (Or.inl (by decide))⟩

/-- C7: the active deny-list is the two paths of `libunwindstack.so` and
`libc_malloc_debug.so` under `/system/lib64` on a 64-bit build and under
`/system/lib` on a 32-bit build; `Unwind` passes exactly this list to the
unwinder and returns the unwinder's frames as they are, so that, the unwinder
dropping every frame whose module path is in the list it is given, no frame
of a successful result has a module path in the active deny-list. -/
theorem Unwind_excludes_denied (lp64 : Bool) (env : Env) (g : Globals) (frames : List Nat)
    (fi : List FrameData) (k : Nat)
    (hdrop : ∀ n maps regs mem skip, ∀ f ∈ env.unwinder n maps regs mem skip,
      ∀ m, f.map_info = some m → m.name ∉ skip)
    (hret : (Unwind lp64 env g frames fi k).ret = true) :
    (∀ f ∈ (Unwind lp64 env g frames fi k).frame_info,
      ∀ m, f.map_info = some m → m.name ∉ g_skip_libraries lp64) ∧
    g_skip_libraries true
      = ["/system/lib64/libunwindstack.so", "/system/lib64/libc_malloc_debug.so"] ∧
    g_skip_libraries false
      = ["/system/lib/libunwindstack.so", "/system/lib/libc_malloc_debug.so"] ∧
    Event.unwind k (g_skip_libraries lp64) ∈ (Unwind lp64 env g frames fi k).events ∧
    (∀ n s, Event.unwind n s ∈ (Unwind lp64 env g frames fi k).events →
      s = g_skip_libraries lp64) ∧
    (∃ maps, (Unwind lp64 env g frames fi k).globals.g_maps = some maps ∧
      (Unwind lp64 env g frames fi k).frame_info
        = env.unwinder k maps env.regs (Unwind lp64 env g frames fi k).globals.g_process_memory
            (g_skip_libraries lp64)) := by
  have hpre : ∀ n s, Event.unwind n s ∉ (pthread_once g (Setup env)).2 := by
    intro n s
    cases h : g.g_setup_once
    · rw [pthread_once_first env g h]; simp
    · rw [pthread_once_done g _ h]; simp
  rcases Unwind_cases lp64 env g frames fi k with ⟨_, h⟩ | ⟨_, _, _, h⟩ | ⟨maps, hm, hU, h⟩
  · rw [h] at hret; simp at hret
  · rw [h] at hret; simp at hret
  · refine ⟨?_, rfl, rfl, ?_, ?_, maps, ?_, ?_⟩
    · intro f hf m hmi
      simp only [h] at hf
      exact hdrop _ _ _ _ _ f hf m hmi
    · simp only [h]; simp
    · intro n s hmem
      simp only [h, List.mem_append, List.mem_singleton] at hmem
      rcases hmem with hmem | hmem
      · exact absurd hmem (hpre n s)
      · cases hmem; rfl
    · rw [Unwind_globals]; exact hm
    · rw [Unwind_globals]; simp only [h]

/-- Witness of C7: a stack topped by the instrumentation's own two libraries;
the capture succeeds and holds neither. -/
theorem Unwind_excludes_denied_witness :
    (∀ n maps regs mem skip, ∀ f ∈ envHealthy.unwinder n maps regs mem skip,
      ∀ m, f.map_info = some m → m.name ∉ skip) ∧
    (Unwind true envHealthy Globals.start [] [] 8).ret = true ∧
    (Unwind true envHealthy Globals.start [] [] 8).frame_info
      = [frameLibc, frameAnon, frameUnknown] ∧
    (∀ f ∈ (Unwind true envHealthy Globals.start [] [] 8).frame_info,
      ∀ m, f.map_info = some m → m.name ∉ g_skip_libraries true) :=
  ⟨fun n maps regs mem skip => sampleUnwinder_drops _ n maps regs mem skip,
    by decide, by decide,
    (Unwind_excludes_denied true envHealthy Globals.start [] [] 8
      (fun n maps regs mem skip => sampleUnwinder_drops _ n maps regs mem skip)
      (by decide)).1⟩

/-! ## Rendering: the claims -/

theorem contains_mid (a part b : String) : Contains (a ++ part ++ b) part :=
  ⟨a.data, b.data, by simp⟩

theorem contains_end (a part : String) : Contains (a ++ part) part :=
  ⟨a.data, [], by simp⟩

theorem dec_eq_repr (n : Nat) : dec n = Nat.repr n := rfl

theorem UnwindLog.loop_spec (lp64 : Bool) (demangle : String → Option String) :
    ∀ (rest : List FrameData) (i : Nat) (sink : List String),
      UnwindLog.loop lp64 demangle rest i sink
        = sink ++ (rest.enumFrom i).map (fun p => logLine lp64 demangle p.1 p.2) := by
  intro rest
  induction rest with
  | nil => intro i sink; simp [UnwindLog.loop]
  | cons info rest ih =>
    intro i sink
    simp [UnwindLog.loop, error_log_string, ih]

/-- The line of a frame, cut into its four parts in order: index and `pc`
field, offset part, module attribution, symbol part. -/
theorem logLine_parts (lp64 : Bool) (demangle : String → Option String) (i : Nat)
    (info : FrameData) :
    logLine lp64 demangle i info
      = "          #" ++ dec i ++ "  pc " ++ zeroPad (PAD_PTR lp64) (hex info.rel_pc) ++ "  " ++
        (match info.map_info with
          | some m => if m.offset ≠ 0 then "(offset 0x" ++ hex m.offset ++ ") " else ""
          | none => "") ++
        (match info.map_info with
          | none => "<unknown>"
          | some m => if m.name = "" then "<anonymous:" ++ hex m.start ++ ">" else m.name) ++
        (if info.function_name ≠ "" then
          " (" ++ (match demangle info.function_name with
            | some d => d
            | none => info.function_name) ++
            (if info.function_offset ≠ 0 then "+" ++ dec info.function_offset else "") ++ ")"
         else "") := by
  unfold logLine
  by_cases hfn : info.function_name = "" <;> by_cases hfo : info.function_offset = 0 <;>
    cases hd : demangle info.function_name <;>
    cases hmi : info.map_info with
    | none =>
      simp only [hfn, hfo, ne_eq, not_true_eq_false, not_false_eq_true, if_true, if_false,
        String.append_assoc, String.append_empty]
    | some m =>
      by_cases hoff : m.offset = 0 <;> by_cases hnm : m.name = "" <;>
        simp only [hfn, hfo, hoff, hnm, ne_eq, not_true_eq_false, not_false_eq_true, if_true,
          if_false, String.append_assoc, String.append_empty]

/-- Start of every rendered line: ten blanks, `#`, the decimal index, then the
`pc` label. -/
theorem logLine_index (lp64 : Bool) (demangle : String → Option String) (i : Nat)
    (info : FrameData) :
    ∃ rest, logLine lp64 demangle i info = "          #" ++ Nat.repr i ++ "  pc " ++ rest := by
  rw [← dec_eq_repr, logLine_parts]
  simp only [String.append_assoc]
  exact ⟨_, rfl⟩

/-- C8: for a sequence of `n` frame descriptors `UnwindLog` makes exactly `n`
sink calls after whatever the sink already held, none for the empty
sequence; the `j`-th of them is the line of frame `j`, which carries the
decimal index `j` right after `#`. Rendering is a total function, so it
neither fails nor stops early. -/
theorem UnwindLog_one_line_per_frame (lp64 : Bool) (demangle : String → Option String)
    (frame_info : List FrameData) (sink : List String) :
    (UnwindLog lp64 demangle frame_info sink).length = sink.length + frame_info.length ∧
    (UnwindLog lp64 demangle frame_info sink).take sink.length = sink ∧
    UnwindLog lp64 demangle [] sink = sink ∧
    (∀ (j : Nat) (h : j < frame_info.length),
      (UnwindLog lp64 demangle frame_info sink)[sink.length + j]?
        = some (logLine lp64 demangle j frame_info[j]) ∧
      (∃ rest, logLine lp64 demangle j frame_info[j]
        = "          #" ++ Nat.repr j ++ "  pc " ++ rest) ∧
      Contains (logLine lp64 demangle j frame_info[j]) ("#" ++ Nat.repr j)) := by
  have hspec := UnwindLog.loop_spec lp64 demangle frame_info 0 sink
  refine ⟨?_, ?_, rfl, ?_⟩
  · simp [UnwindLog, hspec]
  · simp [UnwindLog, hspec]
  · intro j h
    refine ⟨?_, logLine_index lp64 demangle j _, ?_⟩
    · simp only [UnwindLog, hspec]
      rw [List.getElem?_append_right (Nat.le_add_right _ _)]
      simp [List.getElem?_enumFrom, List.getElem?_eq_getElem h]
    · obtain ⟨rest, hrest⟩ := logLine_index lp64 demangle j frame_info[j]
      rw [hrest]
      have : "          #" ++ Nat.repr j ++ "  pc " ++ rest
          = "          " ++ ("#" ++ Nat.repr j) ++ ("  pc " ++ rest) := by
        simp only [String.append_assoc]
        rfl
      rw [this]
      exact contains_mid _ _ _

/-- Witness of C8: three frames rendered on a 64-bit build into an empty
sink give three lines, indexed 0, 1, 2 in input order. -/
theorem UnwindLog_one_line_per_frame_witness :
    UnwindLog true sampleDemangle [frameUnknown, frameLibc, frameAnon] []
      = ["          #0  pc 0000000000001000  <unknown>",
         "          #1  pc 0000000000001234  (offset 0x2000) /system/lib64/libc.so (foo()+12)",
         "          #2  pc 0000000000000010  <anonymous:7e000000> (bar)"] ∧
    (UnwindLog true sampleDemangle [frameUnknown, frameLibc, frameAnon] []).length = 0 + 3 :=
  ⟨by decide,
    (UnwindLog_one_line_per_frame true sampleDemangle
      [frameUnknown, frameLibc, frameAnon] []).1⟩

/-- C9: the module attribution of a rendered line.  With a null owning
module the index and `pc` field is followed at once by `<unknown>`, with no
offset part in between; with a module of empty name the attribution is
`<anonymous:H>`, `H` the hexadecimal start address; with a module of
non-empty name the attribution is that name.  In both module cases the only
text between the `pc` field and the attribution is the optional offset part,
and after the attribution comes only the symbol part, empty when the frame
has no symbol name and parenthesized otherwise. -/
theorem logLine_module_attribution (lp64 : Bool) (demangle : String → Option String)
    (i : Nat) (info : FrameData) :
    ∃ sym,
      (info.function_name = "" → sym = "") ∧
      (info.function_name ≠ "" → ∃ body, sym = " (" ++ body ++ ")") ∧
      (info.map_info = none →
        logLine lp64 demangle i info
          = "          #" ++ dec i ++ "  pc " ++ zeroPad (PAD_PTR lp64) (hex info.rel_pc) ++ "  "
            ++ "<unknown>" ++ sym ∧
        Contains (logLine lp64 demangle i info) "<unknown>") ∧
      (∀ m, info.map_info = some m → m.name = "" →
        ∃ off, (off = "" ∨ off = "(offset 0x" ++ hex m.offset ++ ") ") ∧
          logLine lp64 demangle i info
            = "          #" ++ dec i ++ "  pc " ++ zeroPad (PAD_PTR lp64) (hex info.rel_pc) ++ "  "
              ++ off ++ ("<anonymous:" ++ hex m.start ++ ">") ++ sym ∧
          Contains (logLine lp64 demangle i info) ("<anonymous:" ++ hex m.start ++ ">")) ∧
      (∀ m, info.map_info = some m → m.name ≠ "" →
        ∃ off, (off = "" ∨ off = "(offset 0x" ++ hex m.offset ++ ") ") ∧
          logLine lp64 demangle i info
            = "          #" ++ dec i ++ "  pc " ++ zeroPad (PAD_PTR lp64) (hex info.rel_pc) ++ "  "
              ++ off ++ m.name ++ sym ∧
          Contains (logLine lp64 demangle i info) m.name) := by
  refine ⟨(if info.function_name ≠ "" then
          " (" ++ (match demangle info.function_name with
            | some d => d
            | none => info.function_name) ++
            (if info.function_offset ≠ 0 then "+" ++ dec info.function_offset else "") ++ ")"
         else ""), ?_, ?_, ?_, ?_, ?_⟩
  · intro h; simp only [h, ne_eq, not_true_eq_false, if_false]
  · intro h
    refine ⟨(match demangle info.function_name with
        | some d => d
        | none => info.function_name) ++
        (if info.function_offset ≠ 0 then "+" ++ dec info.function_offset else ""), ?_⟩
    simp only [h, ne_eq, not_false_eq_true, if_true, String.append_assoc]
  · intro hmi
    have hl := logLine_parts lp64 demangle i info
    simp only [hmi, String.append_empty] at hl
    exact ⟨hl, by rw [hl]; exact contains_mid _ _ _⟩
  · intro m hmi hnm
    have hl := logLine_parts lp64 demangle i info
    simp only [hmi, hnm, if_true] at hl
    refine ⟨_, ?_, hl, by rw [hl]; exact contains_mid _ _ _⟩
    by_cases hoff : m.offset = 0
    · left; simp only [hoff, ne_eq, not_true_eq_false, if_false]
    · right; simp only [hoff, ne_eq, not_false_eq_true, if_true]
  · intro m hmi hnm
    have hl := logLine_parts lp64 demangle i info
    simp only [hmi, hnm, if_false] at hl
    refine ⟨_, ?_, hl, by rw [hl]; exact contains_mid _ _ _⟩
    by_cases hoff : m.offset = 0
    · left; simp only [hoff, ne_eq, not_true_eq_false, if_false]
    · right; simp only [hoff, ne_eq, not_false_eq_true, if_true]

/-- Witness of C9: an anonymous mapping starting at `0x7e000000`. -/
theorem logLine_module_attribution_witness :
    frameAnon.map_info = some ⟨"", 0x7e000000, 0⟩ ∧
    logLine false sampleDemangle 2 frameAnon
      = "          #2  pc 00000010  <anonymous:7e000000> (bar)" ∧
    Contains (logLine false sampleDemangle 2 frameAnon) ("<anonymous:" ++ hex 0x7e000000 ++ ">") :=
  ⟨rfl, by decide,
    match logLine_module_attribution false sampleDemangle 2 frameAnon with
    | ⟨_, _, _, _, hanon, _⟩ =>
      match hanon ⟨"", 0x7e000000, 0⟩ rfl rfl with
      | ⟨_, _, _, hc⟩ => hc⟩

/-- C10: for a frame with a non-empty raw symbol name the line ends with
the parenthesized symbol part, appended to the text the same frame would
render without a symbol; inside the parentheses stands the raw name verbatim
when the demangler returns null, and the demangled name in its place when the
demangler returns one, followed by `+` and the decimal symbol offset when
that offset is non-zero. -/
theorem logLine_demangle_fallback (lp64 : Bool) (demangle : String → Option String)
    (i : Nat) (info : FrameData) (hname : info.function_name ≠ "") :
    ∃ off,
      (info.function_offset = 0 → off = "") ∧
      (info.function_offset ≠ 0 → off = "+" ++ dec info.function_offset) ∧
      (demangle info.function_name = none →
        logLine lp64 demangle i info
          = logLine lp64 demangle i
              ⟨info.pc, info.rel_pc, info.map_info, "", info.function_offset⟩
            ++ " (" ++ info.function_name ++ off ++ ")" ∧
        Contains (logLine lp64 demangle i info) info.function_name) ∧
      (∀ d, demangle info.function_name = some d →
        logLine lp64 demangle i info
          = logLine lp64 demangle i
              ⟨info.pc, info.rel_pc, info.map_info, "", info.function_offset⟩
            ++ " (" ++ d ++ off ++ ")" ∧
        Contains (logLine lp64 demangle i info) d) := by
  have hl := logLine_parts lp64 demangle i info
  have hh := logLine_parts lp64 demangle i
    ⟨info.pc, info.rel_pc, info.map_info, "", info.function_offset⟩
  simp only [ne_eq, not_true_eq_false, if_false, String.append_empty] at hh
  simp only [hname, ne_eq, not_false_eq_true, if_true] at hl
  refine ⟨(if info.function_offset ≠ 0 then "+" ++ dec info.function_offset else ""),
    ?_, ?_, ?_, ?_⟩
  · intro h; simp only [h, ne_eq, not_true_eq_false, if_false]
  · intro h; simp only [h, ne_eq, not_false_eq_true, if_true]
  · intro hd
    simp only [hd] at hl
    have heq : logLine lp64 demangle i info
        = logLine lp64 demangle i
            ⟨info.pc, info.rel_pc, info.map_info, "", info.function_offset⟩
          ++ " (" ++ info.function_name
          ++ (if info.function_offset ≠ 0 then "+" ++ dec info.function_offset else "")
          ++ ")" := by
      rw [hl, hh]; simp only [String.append_assoc]
    refine ⟨heq, ?_⟩
    rw [heq]
    simp only [String.append_assoc]
    rw [← String.append_assoc, ← String.append_assoc]
    exact contains_mid _ _ _
  · intro d hd
    simp only [hd] at hl
    have heq : logLine lp64 demangle i info
        = logLine lp64 demangle i
            ⟨info.pc, info.rel_pc, info.map_info, "", info.function_offset⟩
          ++ " (" ++ d
          ++ (if info.function_offset ≠ 0 then "+" ++ dec info.function_offset else "")
          ++ ")" := by
      rw [hl, hh]; simp only [String.append_assoc]
    refine ⟨heq, ?_⟩
    rw [heq]
    simp only [String.append_assoc]
    rw [← String.append_assoc, ← String.append_assoc]
    exact contains_mid _ _ _

/-- Witness of C10: a mangled name the demangler knows, and a plain name it
does not. -/
theorem logLine_demangle_fallback_witness :
    frameLibc.function_name ≠ "" ∧
    sampleDemangle frameLibc.function_name = some "foo()" ∧
    logLine true sampleDemangle 1 frameLibc
      = "          #1  pc 0000000000001234  (offset 0x2000) /system/lib64/libc.so (foo()+12)" ∧
    Contains (logLine true sampleDemangle 1 frameLibc) "foo()" :=
  ⟨by decide, by decide, by decide,
    match logLine_demangle_fallback true sampleDemangle 1 frameLibc (by decide) with
    | ⟨_, _, _, _, hsome⟩ => (hsome "foo()" (by decide)).2⟩

/-! ## Numerals -/

theorem digitValue_digitChar (d : Nat) (h : d < 16) : digitValue (Nat.digitChar d) = some d := by
  interval_cases d <;> rfl

theorem toDigitsCore_digits (b : Nat) (hb : 2 ≤ b) :
    ∀ (fuel n : Nat) (acc : List Char), 0 < n → n < fuel →
      Nat.toDigitsCore b fuel n acc
        = (Nat.digits b n).reverse.map Nat.digitChar ++ acc := by
  intro fuel
  induction fuel with
  | zero => intro n acc _ h; omega
  | succ fuel ih =>
    intro n acc hn hlt
    have hdef := Nat.digits_def' (by omega : 1 < b) hn
    by_cases hq : n / b = 0
    · simp [Nat.toDigitsCore, hq, hdef]
    · have hpos : 0 < n / b := Nat.pos_of_ne_zero hq
      have hlt2 : n / b < fuel := by
        have : n / b < n := Nat.div_lt_self hn (by omega)
        omega
      simp [Nat.toDigitsCore, hq, hdef, ih (n / b) _ hpos hlt2]

/-- Digits printed for a positive value: those of `Nat.digits`, most
significant first. -/
theorem toDigits_digits (b n : Nat) (hb : 2 ≤ b) (hn : 0 < n) :
    Nat.toDigits b n = (Nat.digits b n).reverse.map Nat.digitChar := by
  rw [Nat.toDigits, toDigitsCore_digits b hb (n + 1) n [] hn (by omega)]
  simp

theorem toDigits_zero (b : Nat) : Nat.toDigits b 0 = ['0'] := by
  simp [Nat.toDigits, Nat.toDigitsCore]
  rfl

theorem toDigits_ne_nil (b n : Nat) (hb : 2 ≤ b) : Nat.toDigits b n ≠ [] := by
  rcases Nat.eq_zero_or_pos n with h | h
  · rw [h, toDigits_zero]; simp
  · rw [toDigits_digits b n hb h]
    simp [Nat.digits_ne_nil_iff_ne_zero]
    omega

/-- Number of digits printed: at most `e` for a value below `b ^ e`. -/
theorem toDigits_length_le (b n e : Nat) (hb : 2 ≤ b) (he : 0 < e) (h : n < b ^ e) :
    (Nat.toDigits b n).length ≤ e := by
  rcases Nat.eq_zero_or_pos n with h0 | hpos
  · rw [h0, toDigits_zero]; simpa using he
  · rw [toDigits_digits b n hb hpos]
    simp only [List.length_map, List.length_reverse]
    have h1 := Nat.base_pow_length_digits_le b n (by omega) (by omega)
    have h2 : b ^ (Nat.digits b n).length < b ^ (e + 1) := by
      calc b ^ (Nat.digits b n).length ≤ b * n := h1
        _ < b * b ^ e := Nat.mul_lt_mul_of_pos_left h (by omega)
        _ = b ^ (e + 1) := by rw [Nat.pow_succ, Nat.mul_comm]
    have h3 := (Nat.pow_lt_pow_iff_right (by omega : 1 < b)).mp h2
    omega

/-- Number of digits printed: more than `e` for a value of at least `b ^ e`. -/
theorem toDigits_length_gt (b n e : Nat) (hb : 2 ≤ b) (h : b ^ e ≤ n) :
    e < (Nat.toDigits b n).length := by
  have hpos : 0 < n := Nat.lt_of_lt_of_le (Nat.pow_pos (by omega)) h
  rw [toDigits_digits b n hb hpos]
  simp only [List.length_map, List.length_reverse]
  have h1 : n < b ^ (Nat.digits b n).length := Nat.lt_base_pow_length_digits (by omega)
  exact (Nat.pow_lt_pow_iff_right (by omega : 1 < b)).mp (Nat.lt_of_le_of_lt h h1)

theorem readStep_digits (b : Nat) (hb : b ≤ 16) :
    ∀ (L : List Nat) (acc : Nat), (∀ d ∈ L, d < b) →
      (L.map Nat.digitChar).foldl (readStep b) (some acc)
        = some (L.foldl (fun a d => b * a + d) acc) := by
  intro L
  induction L with
  | nil => intro acc _; rfl
  | cons d L ih =>
    intro acc hL
    have hd : d < b := hL d (List.mem_cons_self d L)
    have hstep : readStep b (some acc) (Nat.digitChar d) = some (b * acc + d) := by
      simp [readStep, digitValue_digitChar d (by omega), hd]
    simp only [List.map_cons, List.foldl_cons, hstep]
    exact ih _ (fun x hx => hL x (List.mem_cons_of_mem d hx))

theorem foldl_reverse_ofDigits (b : Nat) (L : List Nat) :
    L.reverse.foldl (fun a d => b * a + d) 0 = Nat.ofDigits b L := by
  induction L with
  | nil => rfl
  | cons x L ih =>
    simp only [List.reverse_cons, List.foldl_append, List.foldl_cons, List.foldl_nil, ih,
      Nat.ofDigits_cons]
    omega

/-- Reading back the digits printed for a value gives the value, after any
reading that left zero. -/
theorem readStep_toDigits (b n : Nat) (hb : 2 ≤ b) (hb16 : b ≤ 16) :
    (Nat.toDigits b n).foldl (readStep b) (some 0) = some n := by
  rcases Nat.eq_zero_or_pos n with h0 | hpos
  · rw [h0, toDigits_zero]
    have h2 : (0 : Nat) < b := by omega
    simp [readStep, digitValue, h2]
  · rw [toDigits_digits b n hb hpos,
      readStep_digits b hb16 _ 0
        (fun d hd => Nat.digits_lt_base (by omega) (List.mem_reverse.mp hd)),
      foldl_reverse_ofDigits, Nat.ofDigits_digits]

theorem readStep_zeros (b k : Nat) (hb : 0 < b) (rest : List Char) :
    (List.replicate k '0' ++ rest).foldl (readStep b) (some 0)
      = rest.foldl (readStep b) (some 0) := by
  induction k with
  | zero => simp
  | succ k ih =>
    have hstep : readStep b (some 0) '0' = some 0 := by
      simp [readStep, digitValue, hb]
    rw [List.replicate_succ, List.cons_append, List.foldl_cons, hstep, ih]

/-- Hexadecimal text reads back as the value printed. -/
theorem readNumeral_hex (n : Nat) : readNumeral 16 (hex n) = some n := by
  simp only [readNumeral, hex, toDigits_ne_nil 16 n (by omega), if_false]
  exact readStep_toDigits 16 n (by omega) (by omega)

/-- Decimal text reads back as the value printed. -/
theorem readNumeral_dec (n : Nat) : readNumeral 10 (dec n) = some n := by
  simp only [readNumeral, dec, toDigits_ne_nil 10 n (by omega), if_false]
  exact readStep_toDigits 10 n (by omega) (by omega)

/-- Zero-padded hexadecimal text reads back as the value printed. -/
theorem readNumeral_zeroPad_hex (w n : Nat) : readNumeral 16 (zeroPad w (hex n)) = some n := by
  have hne : (zeroPad w (hex n)).data ≠ [] := by
    simp [zeroPad, hex, toDigits_ne_nil 16 n (by omega)]
  simp only [readNumeral, hne, if_false]
  simp only [zeroPad, hex, String.data_append]
  rw [readStep_zeros 16 _ (by omega)]
  exact readStep_toDigits 16 n (by omega) (by omega)

/-- Length of a zero-padded field: the larger of the width and the length of
the text. -/
theorem zeroPad_length (w : Nat) (s : String) :
    (zeroPad w s).data.length = max w s.data.length := by
  simp only [zeroPad, String.data_append, List.length_append, List.length_replicate]
  omega

theorem zeroPad_of_le (w : Nat) (s : String) (h : w ≤ s.data.length) : zeroPad w s = s := by
  apply String.ext
  simp only [zeroPad, String.data_append, Nat.sub_eq_zero_of_le h, List.replicate_zero,
    List.nil_append]

/-! ## Rendering: line layout -/

/-- C11 (as stated, refuted): the frame with `pc = rel_pc = 0x1000`, no
owning module and no symbol does not render as `#0  pc 00001000  <unknown>`
on a 32-bit build nor as `#0  pc 0000000000001000  <unknown>` on a 64-bit
build: the line starts with the ten blanks of the format string; and the
value printed is `rel_pc`, not `pc`, as a frame with `pc = 0x1000` and
`rel_pc = 0x2000` shows. -/
theorem logLine_unknown_not_bare :
    frameUnknown = ⟨0x1000, 0x1000, none, "", 0⟩ ∧
    logLine false sampleDemangle 0 frameUnknown ≠ "#0  pc 00001000  <unknown>" ∧
    logLine false sampleDemangle 0 frameUnknown = "          #0  pc 00001000  <unknown>" ∧
    logLine true sampleDemangle 0 frameUnknown ≠ "#0  pc 0000000000001000  <unknown>" ∧
    logLine true sampleDemangle 0 frameUnknown
      = "          #0  pc 0000000000001000  <unknown>" ∧
    frameShifted = ⟨0x1000, 0x2000, none, "", 0⟩ ∧
    logLine false sampleDemangle 0 frameShifted = "          #0  pc 00002000  <unknown>" := by
  decide

/-- C11 (amended): a frame with no owning module and an empty symbol name
renders as ten blanks, `#`, the decimal index, two blanks, `pc`, one blank,
the relative program counter in hexadecimal zero-padded to the build's width,
two blanks and `<unknown>`, and nothing else, whatever its symbol offset. -/
theorem logLine_unknown_no_symbol (lp64 : Bool) (demangle : String → Option String)
    (i : Nat) (info : FrameData)
    (hmod : info.map_info = none) (hname : info.function_name = "") :
    logLine lp64 demangle i info
      = "          #" ++ dec i ++ "  pc " ++ zeroPad (PAD_PTR lp64) (hex info.rel_pc)
        ++ "  <unknown>" := by
  have hl := logLine_parts lp64 demangle i info
  simp only [hmod, hname, ne_eq, not_true_eq_false, if_false, String.append_empty] at hl
  rw [hl]
  simp only [String.append_assoc]
  rfl

/-- Witness of C11: the frame `pc = rel_pc = 0x1000` on both builds. -/
theorem logLine_unknown_no_symbol_witness :
    frameUnknown.map_info = none ∧ frameUnknown.function_name = "" ∧
    logLine false sampleDemangle 0 frameUnknown
      = "          #" ++ dec 0 ++ "  pc " ++ zeroPad (PAD_PTR false) (hex frameUnknown.rel_pc)
        ++ "  <unknown>" ∧
    "          #" ++ dec 0 ++ "  pc " ++ zeroPad (PAD_PTR false) (hex frameUnknown.rel_pc)
        ++ "  <unknown>" = "          #0  pc 00001000  <unknown>" ∧
    "          #" ++ dec 0 ++ "  pc " ++ zeroPad (PAD_PTR true) (hex frameUnknown.rel_pc)
        ++ "  <unknown>" = "          #0  pc 0000000000001000  <unknown>" :=
  ⟨rfl, rfl, logLine_unknown_no_symbol false sampleDemangle 0 frameUnknown rfl rfl,
    by decide, by decide⟩

/-- C12 (as stated, refuted): on a 32-bit build the relative program counter
`0x100000000`, a 64-bit value, is printed with nine hexadecimal digits, not
eight. -/
theorem logLine_pc_field_nine_digits :
    frameWide.rel_pc = 0x100000000 ∧ frameWide.rel_pc < 2 ^ 64 ∧
    logLine false sampleDemangle 0 frameWide = "          #0  pc 100000000  <unknown>" ∧
    zeroPad (PAD_PTR false) (hex frameWide.rel_pc) = "100000000" ∧
    (zeroPad (PAD_PTR false) (hex frameWide.rel_pc)).data.length = 9 := by
  decide

/-- C12 (amended): for a 64-bit relative program counter, the field after
`pc` is that value in lower-case hexadecimal, left-padded with zeros to at
least the build's width: it reads back as the value, it has exactly 16 digits
on a 64-bit build, exactly 8 digits on a 32-bit build when the value is below
`2 ^ 32`, and on a 32-bit build with a value of `2 ^ 32` or more it is the
unpadded hexadecimal text, of 9 to 16 digits. -/
theorem logLine_pc_field (lp64 : Bool) (demangle : String → Option String) (i : Nat)
    (info : FrameData) (h64 : info.rel_pc < 2 ^ 64) :
    (∃ rest, logLine lp64 demangle i info
      = "          #" ++ dec i ++ "  pc " ++ zeroPad (PAD_PTR lp64) (hex info.rel_pc)
        ++ "  " ++ rest) ∧
    (∃ k, zeroPad (PAD_PTR lp64) (hex info.rel_pc)
      = String.mk (List.replicate k '0') ++ hex info.rel_pc) ∧
    readNumeral 16 (zeroPad (PAD_PTR lp64) (hex info.rel_pc)) = some info.rel_pc ∧
    (lp64 = true → (zeroPad (PAD_PTR lp64) (hex info.rel_pc)).data.length = 16) ∧
    (lp64 = false → info.rel_pc < 2 ^ 32 →
      (zeroPad (PAD_PTR lp64) (hex info.rel_pc)).data.length = 8) ∧
    (lp64 = false → 2 ^ 32 ≤ info.rel_pc →
      zeroPad (PAD_PTR lp64) (hex info.rel_pc) = hex info.rel_pc ∧
      8 < (zeroPad (PAD_PTR lp64) (hex info.rel_pc)).data.length ∧
      (zeroPad (PAD_PTR lp64) (hex info.rel_pc)).data.length ≤ 16) := by
  have hlen16 : (hex info.rel_pc).data.length ≤ 16 :=
    toDigits_length_le 16 info.rel_pc 16 (by omega) (by omega) (by
      calc info.rel_pc < 2 ^ 64 := h64
        _ = 16 ^ 16 := by norm_num)
  refine ⟨?_, ⟨_, rfl⟩, readNumeral_zeroPad_hex _ _, ?_, ?_, ?_⟩
  · rw [logLine_parts]
    simp only [String.append_assoc]
    exact ⟨_, rfl⟩
  · intro h
    rw [zeroPad_length, h]
    simp only [PAD_PTR, if_true]
    omega
  · intro h h32
    have hlen8 : (hex info.rel_pc).data.length ≤ 8 :=
      toDigits_length_le 16 info.rel_pc 8 (by omega) (by omega) (by
        calc info.rel_pc < 2 ^ 32 := h32
          _ = 16 ^ 8 := by norm_num)
    rw [zeroPad_length, h]
    simp only [PAD_PTR, Bool.false_eq_true, if_false]
    omega
  · intro h h32
    have hgt : 8 < (hex info.rel_pc).data.length :=
      toDigits_length_gt 16 info.rel_pc 8 (by omega) (by
        calc 16 ^ 8 = 2 ^ 32 := by norm_num
          _ ≤ info.rel_pc := h32)
    have hpad : PAD_PTR lp64 = 8 := by rw [h]; rfl
    rw [hpad, zeroPad_of_le 8 _ (by omega)]
    exact ⟨rfl, hgt, hlen16⟩

/-- Witness of C12: a small value on both builds. -/
theorem logLine_pc_field_witness :
    frameLibc.rel_pc < 2 ^ 64 ∧
    zeroPad (PAD_PTR true) (hex frameLibc.rel_pc) = "0000000000001234" ∧
    zeroPad (PAD_PTR false) (hex frameLibc.rel_pc) = "00001234" ∧
    (zeroPad (PAD_PTR true) (hex frameLibc.rel_pc)).data.length = 16 ∧
    readNumeral 16 (zeroPad (PAD_PTR false) (hex frameLibc.rel_pc)) = some frameLibc.rel_pc :=
  ⟨by decide, by decide, by decide,
    (logLine_pc_field true sampleDemangle 1 frameLibc (by decide)).2.2.2.1 rfl,
    (logLine_pc_field false sampleDemangle 1 frameLibc (by decide)).2.2.1⟩

theorem offset_part_ne_empty (h : String) : "(offset 0x" ++ h ++ ") " ≠ "" := by
  intro he
  have hd := congrArg (fun t => t.data.length) he
  simp only [String.data_append, List.length_append] at hd
  have h10 : ("(offset 0x" : String).data.length = 10 := by decide
  have h0 : ("" : String).data.length = 0 := by decide
  rw [h10, h0] at hd
  omega

/-- C13: the line is the index and `pc` field, then the offset part, then
the module attribution, then the symbol part.  The offset part is
`(offset 0x<H>) `, with `H` the mapping's file offset in lower-case
hexadecimal, when the owning module is known and that offset is non-zero,
and it is empty when the module is unknown or the offset is zero; so it is
non-empty exactly in the first case. -/
theorem logLine_offset_part (lp64 : Bool) (demangle : String → Option String) (i : Nat)
    (info : FrameData) :
    ∃ off attr sym,
      logLine lp64 demangle i info
        = "          #" ++ dec i ++ "  pc " ++ zeroPad (PAD_PTR lp64) (hex info.rel_pc) ++ "  "
          ++ off ++ attr ++ sym ∧
      (info.map_info = none → attr = "<unknown>") ∧
      (∀ m, info.map_info = some m → m.name = "" → attr = "<anonymous:" ++ hex m.start ++ ">") ∧
      (∀ m, info.map_info = some m → m.name ≠ "" → attr = m.name) ∧
      (info.function_name = "" → sym = "") ∧
      (info.function_name ≠ "" → ∃ body, sym = " (" ++ body ++ ")") ∧
      (∀ m, info.map_info = some m → m.offset ≠ 0 →
        off = "(offset 0x" ++ hex m.offset ++ ") " ∧
        readNumeral 16 (hex m.offset) = some m.offset) ∧
      (∀ m, info.map_info = some m → m.offset = 0 → off = "") ∧
      (info.map_info = none → off = "") ∧
      (off ≠ "" ↔ ∃ m, info.map_info = some m ∧ m.offset ≠ 0) := by
  refine ⟨(match info.map_info with
          | some m => if m.offset ≠ 0 then "(offset 0x" ++ hex m.offset ++ ") " else ""
          | none => ""),
        (match info.map_info with
          | none => "<unknown>"
          | some m => if m.name = "" then "<anonymous:" ++ hex m.start ++ ">" else m.name),
        (if info.function_name ≠ "" then
          " (" ++ (match demangle info.function_name with
            | some d => d
            | none => info.function_name) ++
            (if info.function_offset ≠ 0 then "+" ++ dec info.function_offset else "") ++ ")"
         else ""), logLine_parts lp64 demangle i info, ?_, ?_, ?_, ?_, ?_, ?_, ?_, ?_, ?_⟩
  · intro h; simp only [h]
  · intro m h hn; simp only [h, hn, if_true]
  · intro m h hn; simp only [h, hn, if_false]
  · intro h; simp only [h, ne_eq, not_true_eq_false, if_false]
  · intro h
    refine ⟨(match demangle info.function_name with
        | some d => d
        | none => info.function_name) ++
        (if info.function_offset ≠ 0 then "+" ++ dec info.function_offset else ""), ?_⟩
    simp only [h, ne_eq, not_false_eq_true, if_true, String.append_assoc]
  · intro m h ho
    refine ⟨?_, readNumeral_hex _⟩
    simp only [h, ho, ne_eq, not_false_eq_true, if_true]
  · intro m h ho; simp only [h, ho, ne_eq, not_true_eq_false, if_false]
  · intro h; simp only [h]
  · cases hmi : info.map_info with
    | none => simp
    | some m =>
      by_cases ho : m.offset = 0
      · simp [ho]
      · simp only [ho, ne_eq, not_false_eq_true, if_true, Option.some.injEq, exists_eq_left',
          iff_true]
        exact offset_part_ne_empty _

/-- Witness of C13: a library mapped at file offset `0x2000`. -/
theorem logLine_offset_part_witness :
    frameLibc.map_info = some ⟨"/system/lib64/libc.so", 0x7f000000, 0x2000⟩ ∧
    logLine true sampleDemangle 1 frameLibc
      = "          #1  pc 0000000000001234  (offset 0x2000) /system/lib64/libc.so (foo()+12)" ∧
    logLine true sampleDemangle 3 frameNoSymbol
      = "          #3  pc 0000000000000040  /system/lib64/libm.so" ∧
    ∃ off attr sym, logLine true sampleDemangle 1 frameLibc
      = "          #" ++ dec 1 ++ "  pc " ++ zeroPad (PAD_PTR true) (hex frameLibc.rel_pc) ++ "  "
        ++ off ++ attr ++ sym ∧ off = "(offset 0x" ++ hex 0x2000 ++ ") " :=
  ⟨rfl, by decide, by decide,
    match logLine_offset_part true sampleDemangle 1 frameLibc with
    | ⟨off, attr, sym, hline, _, _, _, _, _, hoff, _⟩ =>
      ⟨off, attr, sym, hline,
        (hoff ⟨"/system/lib64/libc.so", 0x7f000000, 0x2000⟩ rfl (by decide)).1⟩⟩

/-- C14: the symbol part of a line.  With an empty raw symbol name the line
is the text through the module attribution and nothing more, whatever the
symbol offset.  With a non-empty raw symbol name the line is that same text
followed by ` (<name>)` when the symbol offset is zero and by
` (<name>+<d>)`, `d` the symbol offset in decimal, when it is non-zero,
`<name>` being the demangled name when the demangler returns one and the raw
name when it returns null. -/
theorem logLine_symbol_part (lp64 : Bool) (demangle : String → Option String) (i : Nat)
    (info : FrameData) :
    (∃ pre attr,
      logLine lp64 demangle i ⟨info.pc, info.rel_pc, info.map_info, "", 0⟩ = pre ++ attr ∧
      (info.map_info = none → attr = "<unknown>") ∧
      (∀ m, info.map_info = some m → m.name = "" →
        attr = "<anonymous:" ++ hex m.start ++ ">") ∧
      (∀ m, info.map_info = some m → m.name ≠ "" → attr = m.name)) ∧
    (info.function_name = "" →
      logLine lp64 demangle i info
        = logLine lp64 demangle i ⟨info.pc, info.rel_pc, info.map_info, "", 0⟩) ∧
    (info.function_name ≠ "" →
      ∃ name,
        (demangle info.function_name = none → name = info.function_name) ∧
        (∀ d, demangle info.function_name = some d → name = d) ∧
        (info.function_offset = 0 →
          logLine lp64 demangle i info
            = logLine lp64 demangle i ⟨info.pc, info.rel_pc, info.map_info, "", 0⟩
              ++ " (" ++ name ++ ")") ∧
        (info.function_offset ≠ 0 →
          logLine lp64 demangle i info
            = logLine lp64 demangle i ⟨info.pc, info.rel_pc, info.map_info, "", 0⟩
              ++ " (" ++ name ++ "+" ++ dec info.function_offset ++ ")" ∧
          readNumeral 10 (dec info.function_offset) = some info.function_offset)) := by
  have hl := logLine_parts lp64 demangle i info
  have hh := logLine_parts lp64 demangle i ⟨info.pc, info.rel_pc, info.map_info, "", 0⟩
  simp only [ne_eq, not_true_eq_false, if_false, String.append_empty] at hh
  refine ⟨⟨_, _, hh, ?_, ?_, ?_⟩, ?_, ?_⟩
  · intro h; simp only [h]
  · intro m h hn; simp only [h, hn, if_true]
  · intro m h hn; simp only [h, hn, if_false]
  · intro hn
    simp only [hn, ne_eq, not_true_eq_false, if_false, String.append_empty] at hl
    rw [hl, hh]
  · intro hn
    simp only [hn, ne_eq, not_false_eq_true, if_true] at hl
    refine ⟨(match demangle info.function_name with
        | some d => d
        | none => info.function_name), ?_, ?_, ?_, ?_⟩
    · intro hd; simp only [hd]
    · intro d hd; simp only [hd]
    · intro ho
      simp only [ho, ne_eq, not_true_eq_false, if_false, String.append_empty] at hl
      rw [hl, hh]
      simp only [String.append_assoc]
    · intro ho
      simp only [ho, ne_eq, not_false_eq_true, if_true] at hl
      refine ⟨?_, readNumeral_dec _⟩
      rw [hl, hh]
      simp only [String.append_assoc]

/-- Witness of C14: a frame with a symbol offset but no symbol name, and a
frame with a demangled name and a non-zero symbol offset. -/
theorem logLine_symbol_part_witness :
    frameNoSymbol.function_name = "" ∧ frameNoSymbol.function_offset = 24 ∧
    logLine true sampleDemangle 3 frameNoSymbol
      = "          #3  pc 0000000000000040  /system/lib64/libm.so" ∧
    logLine true sampleDemangle 3 frameNoSymbol
      = logLine true sampleDemangle 3
          ⟨frameNoSymbol.pc, frameNoSymbol.rel_pc, frameNoSymbol.map_info, "", 0⟩ ∧
    logLine true sampleDemangle 1 frameLibc
      = "          #1  pc 0000000000001234  (offset 0x2000) /system/lib64/libc.so (foo()+12)" :=
  ⟨rfl, rfl, by decide,
    (logLine_symbol_part true sampleDemangle 3 frameNoSymbol).2.1 rfl,
    by decide⟩

/-! ## Capture: the disabled path -/

theorem Setup_events_no_unwind (env : Env) (g : Globals) :
    ∀ n s, Event.unwind n s ∉ (pthread_once g (Setup env)).2 := by
  intro n s
  cases h : g.g_setup_once
  · rw [pthread_once_first env g h]; simp
  · rw [pthread_once_done g _ h]; simp

/-- C15: when `g_maps` is null after the one-time setup, `Unwind` returns
false, does not call the unwinder, and both vectors hold on return exactly
what they held on entry, whatever that was. -/
theorem Unwind_disabled_untouched (lp64 : Bool) (env : Env) (g : Globals)
    (frames : List Nat) (fi : List FrameData) (k : Nat)
    (hdis : (Unwind lp64 env g frames fi k).globals.g_maps = none) :
    (Unwind lp64 env g frames fi k).ret = false ∧
    (Unwind lp64 env g frames fi k).frames = frames ∧
    (Unwind lp64 env g frames fi k).frame_info = fi ∧
    (∀ n s, Event.unwind n s ∉ (Unwind lp64 env g frames fi k).events) := by
  rw [Unwind_globals] at hdis
  have hev := Unwind_events lp64 env g frames fi k
  simp only [hdis, List.append_nil] at hev
  rcases Unwind_cases lp64 env g frames fi k with ⟨_, h⟩ | ⟨_, hm, _, _⟩ | ⟨_, hm, _, _⟩
  · refine ⟨by rw [h], by rw [h], by rw [h], ?_⟩
    intro n s
    rw [hev]
    exact Setup_events_no_unwind env g n s
  · rw [hdis] at hm; cases hm
  · rw [hdis] at hm; cases hm

/-- Witness of C15: a process whose maps cannot be parsed, called with
vectors that already hold entries. -/
theorem Unwind_disabled_untouched_witness :
    (Unwind false envParseFails Globals.start [5, 6] [frameLibc, frameAnon] 3).globals.g_maps
      = none ∧
    (Unwind false envParseFails Globals.start [5, 6] [frameLibc, frameAnon] 3).ret = false ∧
    (Unwind false envParseFails Globals.start [5, 6] [frameLibc, frameAnon] 3).frames
      = [5, 6] ∧
    (Unwind false envParseFails Globals.start [5, 6] [frameLibc, frameAnon] 3).frame_info
      = [frameLibc, frameAnon] :=
  ⟨by decide,
    (Unwind_disabled_untouched false envParseFails Globals.start [5, 6] [frameLibc, frameAnon] 3
      (by decide)).1,
    (Unwind_disabled_untouched false envParseFails Globals.start [5, 6] [frameLibc, frameAnon] 3
      (by decide)).2.1,
    (Unwind_disabled_untouched false envParseFails Globals.start [5, 6] [frameLibc, frameAnon] 3
      (by decide)).2.2.1⟩

end UnwindBacktrace
